import Mathlib

/-!
Shallow embedding of `kapitan/inventory/inventory.py`: the inventory
discovery / lookup / lazy-render-dispatch core.

Modelling conventions:
* Python `dict`s are insertion-ordered association lists
  (`List (String × _)`); `dictGet?` / `dictSet` mirror `d[k]` lookup and
  `d[k] = v` assignment (assignment to an existing key keeps its position,
  a fresh key is appended at the end).
* `os.walk(self.targets_path)` is modelled by an explicit input
  `List WalkEntry`; each entry carries the directory path relative to the
  targets path (the empty string for the targets root itself) and the file
  names it yields, so `os.path.relpath(os.path.join(root, file),
  self.targets_path)` becomes `joinRel e.reldir file`.
* `os.path.splitext` and `str.replace(os.sep, ".")` are implemented on
  character lists, following CPython (the extension is taken at the last
  dot of the last path component, unless only dots precede it there).
* Exceptions are explicit: operations that can raise return `Except PyErr`
  or a `(state, Option PyErr)` pair when the mutations performed before the
  raise must be observable (as for `initialise`).
* The abstract `render_targets` backend is an external collaborator; it is
  modelled by a function `B : InventoryTarget → InventoryTarget` applied to
  each record of the submitted batch, mutating it in place (the registry
  entry under the same key is replaced, as the record is the same object).
  `GetResult.renderCalls` logs the batches passed to `render_targets`, and
  `GetResult.scanned` records whether the `if not self.targets:
  self.initialise()` branch of `get_targets` ran.
-/

/-- The `parameters` mapping of a target (a Python dict, here an
association list from parameter names to opaque values). -/
abbrev Params := List (String × Nat)

/-- `InventoryTarget`: one discovered target record. The pydantic defaults
give a freshly constructed record empty `parameters`, `classes`,
`applications` and `exports`. -/
structure InventoryTarget where
  name : String
  path : String
  parameters : Params := []
  classes : List String := []
  applications : List String := []
  exports : List String := []
  deriving Repr, DecidableEq

/-- The `Inventory` state: registry of targets plus the initialised flag
(paths kept for completeness; discovery reads the walk input instead). -/
structure Inventory where
  inventory_path : String := "inventory"
  initialised : Bool := false
  compose_target_name : Bool := false
  targets : List (String × InventoryTarget) := []
  targets_path : String := "inventory/targets"
  classes_path : String := "inventory/classes"
  deriving Repr, DecidableEq

/-- The exceptions the embedded code can raise: `InventoryError` for a
name collision (carrying the formatted message), `InventoryError` for a
failed lookup (carrying the set of missing names, which Python formats
into the message), Python's built-in `KeyError`, and the `ValueError` /
`AttributeError` raised by unpacking / attribute access. -/
inductive PyErr where
  | conflict (msg : String)
  | targetsNotFound (missing : List String)
  | keyError (key : String)
  | valueError
  | attributeError
  deriving Repr, DecidableEq

/-- Lookup in a Python dict modelled as an association list. -/
def dictGet? {α : Type} : List (String × α) → String → Option α
  | [], _ => none
  | (a, b) :: rest, k => if a = k then some b else dictGet? rest k

/-- Assignment `d[k] = v` in a Python dict: an existing key keeps its
position and gets the new value, a fresh key is appended at the end. -/
def dictSet {α : Type} : List (String × α) → String → α → List (String × α)
  | [], k, v => [(k, v)]
  | (a, b) :: rest, k, v =>
    if a = k then (k, v) :: rest else (a, b) :: dictSet rest k v

/-- Index of the last occurrence of a character in a character list. -/
def lastIdxOf : List Char → Char → Option Nat
  | [], _ => none
  | a :: as, c =>
    match lastIdxOf as c with
    | some i => some (i + 1)
    | none => if a = c then some 0 else none

/-- `os.path.splitext`, following CPython: split at the last dot provided
it lies after the last path separator and at least one non-dot character
of the last component precedes it. -/
def splitext (p : String) : String × String :=
  let cs := p.toList
  match lastIdxOf cs '.' with
  | none => (p, "")
  | some di =>
    let fi : Nat :=
      match lastIdxOf cs '/' with
      | none => 0
      | some si => si + 1
    if fi ≤ di ∧ ((cs.drop fi).take (di - fi)).any (fun c => c ≠ '.') then
      (String.mk (cs.take di), String.mk (cs.drop di))
    else
      (p, "")

/-- `name.replace(os.sep, ".")` with `os.sep = "/"`. -/
def sepToDot (s : String) : String :=
  String.mk (s.toList.map (fun c => if c = '/' then '.' else c))

/-- `os.path.relpath(os.path.join(root, file), self.targets_path)` for a
walk entry whose directory is already given relative to the targets path. -/
def joinRel (reldir file : String) : String :=
  if reldir = "" then file else reldir ++ "/" ++ file

/-- One entry yielded by `os.walk`: the directory (relative to the targets
path, `""` for the targets root) and the plain file names in it. -/
structure WalkEntry where
  reldir : String
  files : List String
  deriving Repr, DecidableEq

/-- Name/extension/path derivation of `initialise` for one file:
in composed mode the name is the relative path with the extension stripped
and separators replaced by dots, in compact mode the bare file name with
the extension stripped. -/
def classify (compose : Bool) (reldir file : String) : String × String × String :=
  let path := joinRel reldir file
  if compose then
    let se := splitext path
    (sepToDot se.1, se.2, path)
  else
    let se := splitext file
    (se.1, se.2, path)

/-- The `ext not in (".yml", ".yaml")` filter of `initialise`: `some (name,
path)` when the file is accepted as a target definition, `none` when it is
skipped. -/
def accepted (compose : Bool) (reldir file : String) : Option (String × String) :=
  let c := classify compose reldir file
  if c.2.1 = ".yml" ∨ c.2.1 = ".yaml" then some (c.1, c.2.2) else none

/-- `InventoryTarget(name=name, path=path)`: a fresh unrendered record. -/
def newTarget (n p : String) : InventoryTarget :=
  { name := n, path := p }

/-- The collision message raised by `initialise`
(f-string with the new path first, then the registered one). -/
def conflictMsg (name newPath oldPath : String) : String :=
  s!"Conflicting targets {name}: {newPath} and {oldPath}. " ++
    "Consider using \x27--compose-target-name\x27."

/-- The body of `initialise` for one file: skip non-YAML extensions, raise
on a name collision, otherwise insert the unrendered record. The raised
error is returned next to the state mutated so far. -/
def processFile (inv : Inventory) (reldir file : String) :
    Inventory × Option PyErr :=
  match accepted inv.compose_target_name reldir file with
  | none => (inv, none)
  | some (name, path) =>
    match dictGet? inv.targets name with
    | some old => (inv, some (.conflict (conflictMsg name path old.path)))
    | none =>
      ({ inv with targets := dictSet inv.targets name (newTarget name path) },
        none)

/-- The inner `for file in files` loop of `initialise`; a raise stops the
loop with the mutations made so far kept. -/
def processFiles (inv : Inventory) (reldir : String) :
    List String → Inventory × Option PyErr
  | [] => (inv, none)
  | f :: fs =>
    match processFile inv reldir f with
    | (i, none) => processFiles i reldir fs
    | (i, some e) => (i, some e)

/-- The outer `for root, dirs, files in os.walk(...)` loop of
`initialise`. `self.initialised = True` is indented inside this loop in
the source, so it runs after each directory's files, not once after the
whole walk. -/
def processWalk (inv : Inventory) : List WalkEntry → Inventory × Option PyErr
  | [] => (inv, none)
  | e :: es =>
    match processFiles inv e.reldir e.files with
    | (i, none) => processWalk { i with initialised := true } es
    | (i, some err) => (i, some err)

/-- `Inventory.initialise`: walk the targets directory unless the flag is
already set, then return the flag. -/
def initialise (inv : Inventory) (walk : List WalkEntry) :
    Inventory × Except PyErr Bool :=
  if inv.initialised then (inv, .ok inv.initialised)
  else
    match processWalk inv walk with
    | (i, none) => (i, .ok i.initialised)
    | (i, some e) => (i, .error e)

/-- The result of a `get_targets` call: the final inventory state, the
registry as it stood after the (possible) initialise step and before the
render dispatch (`pre`), the batches passed to `render_targets`
(`renderCalls`), whether the `if not self.targets: self.initialise()`
branch ran (`scanned`), and the returned registry (`ret`). -/
structure GetResult where
  state : Inventory
  pre : List (String × InventoryTarget)
  renderCalls : List (List InventoryTarget)
  scanned : Bool
  ret : List (String × InventoryTarget)
  deriving Repr, DecidableEq

/-- The `if not self.targets: self.initialise()` step of `get_targets`:
an exception from `initialise` propagates. -/
def initStep (w : List WalkEntry) (inv : Inventory) : Inventory × Option PyErr :=
  if inv.targets.isEmpty then
    match initialise inv w with
    | (i, .ok _) => (i, none)
    | (i, .error e) => (i, some e)
  else (inv, none)

/-- The dict comprehension `{target_name: self.targets[target_name] for
target_name in target_names}`: stops with a `KeyError` at the first
missing name (the partially built dict is then discarded, since the
assignment to `targets` never happens). -/
def buildSubsetAux (reg : List (String × InventoryTarget))
    (acc : List (String × InventoryTarget)) :
    List String → Except String (List (String × InventoryTarget))
  | [] => .ok acc
  | n :: ns =>
    match dictGet? reg n with
    | some t => buildSubsetAux reg (dictSet acc n t) ns
    | none => .error n

/-- The dict comprehension of `get_targets`, started from an empty dict. -/
def buildSubset (reg : List (String × InventoryTarget)) (names : List String) :
    Except String (List (String × InventoryTarget)) :=
  buildSubsetAux reg [] names

/-- `set(target_names) - set(self.targets)`: the requested names absent
from the registry, one occurrence each (Python iterates a set; a
deduplicated list represents it). -/
def missingOf (names : List String) (reg : List (String × InventoryTarget)) :
    List String :=
  (names.filter (fun n => (dictGet? reg n).isNone)).dedup

/-- Name resolution of `get_targets`: an empty request means the whole
registry; otherwise the dict comprehension, whose `KeyError` is either
swallowed (leaving the pre-assigned empty dict as the working subset) or
re-raised as an `InventoryError` enumerating every missing name. -/
def resolveStep (reg : List (String × InventoryTarget)) (names : List String)
    (ignore_class_not_found : Bool) :
    Except PyErr (List (String × InventoryTarget)) :=
  if names.isEmpty then .ok reg
  else
    match buildSubset reg names with
    | .ok d => .ok d
    | .error _ =>
      if ignore_class_not_found then .ok []
      else .error (.targetsNotFound (missingOf names reg))

/-- The in-place mutation performed by `render_targets` on the submitted
batch: the registry entries whose keys are the batch keys are the very
objects of the batch, so they take the backend's output. -/
def renderInto (B : InventoryTarget → InventoryTarget) :
    List (String × InventoryTarget) → List String →
    List (String × InventoryTarget)
  | [], _ => []
  | (a, b) :: rest, ks =>
    if a ∈ ks then (a, B b) :: renderInto B rest ks
    else (a, b) :: renderInto B rest ks

/-- The `targets_to_render` selection of `get_targets`: the entries of
the working subset whose `parameters` dict is still empty ("not
target.parameters"). -/
def unrenderedOf (sub : List (String × InventoryTarget)) :
    List (String × InventoryTarget) :=
  sub.filter (fun p => p.2.parameters.isEmpty)

/-- `Inventory.get_targets`: initialise an empty registry, resolve the
requested names, submit the still-unrendered records of the resolved
subset as one batch to `render_targets`, and return `self.targets`. -/
def get_targets (B : InventoryTarget → InventoryTarget) (w : List WalkEntry)
    (inv : Inventory) (target_names : List String)
    (ignore_class_not_found : Bool) : Except PyErr GetResult :=
  match initStep w inv with
  | (_, some e) => .error e
  | (inv1, none) =>
    match resolveStep inv1.targets target_names ignore_class_not_found with
    | .error e => .error e
    | .ok sub =>
      let unrendered := unrenderedOf sub
      if unrendered.isEmpty then
        .ok { state := inv1, pre := inv1.targets, renderCalls := [],
              scanned := inv.targets.isEmpty, ret := inv1.targets }
      else
        let reg2 := renderInto B inv1.targets (unrendered.map Prod.fst)
        .ok { state := { inv1 with targets := reg2 }, pre := inv1.targets,
              renderCalls := [unrendered.map Prod.snd],
              scanned := inv.targets.isEmpty, ret := reg2 }

/-- `Inventory.get_target`: `self.get_targets([target_name], ...)
[target_name]`; indexing the returned dict raises `KeyError` when the name
is absent. -/
def get_target (B : InventoryTarget → InventoryTarget) (w : List WalkEntry)
    (inv : Inventory) (target_name : String)
    (ignore_class_not_found : Bool) :
    Except PyErr (Inventory × InventoryTarget) :=
  match get_targets B w inv [target_name] ignore_class_not_found with
  | .error e => .error e
  | .ok r =>
    match dictGet? r.ret target_name with
    | some t => .ok (r.state, t)
    | none => .error (.keyError target_name)

/-- `Inventory.get_parameters` for a `str` argument (`type(target_names)
is str`): `self.get_target(...).parameters`. -/
def get_parameters_single (B : InventoryTarget → InventoryTarget)
    (w : List WalkEntry) (inv : Inventory) (target_name : String)
    (ignore_class_not_found : Bool) : Except PyErr (Inventory × Params) :=
  match get_target B w inv target_name ignore_class_not_found with
  | .error e => .error e
  | .ok (s, t) => .ok (s, t.parameters)

/-- `Inventory.get_parameters` for a list argument: `{name:
target.parameters for name, target in self.get_targets(target_names)}`.
Iterating the returned dict yields its KEYS (there is no `.items()`), so
each iteration tuple-unpacks a key string into `name, target`: a key whose
length is not 2 raises `ValueError`, and a key of length 2 binds `target`
to a one-character string, whose `.parameters` attribute access raises
`AttributeError`. Only an empty registry yields an empty mapping. -/
def get_parameters_list (B : InventoryTarget → InventoryTarget)
    (w : List WalkEntry) (inv : Inventory) (target_names : List String)
    (ignore_class_not_found : Bool) :
    Except PyErr (Inventory × List (String × Params)) :=
  match get_targets B w inv target_names ignore_class_not_found with
  | .error e => .error e
  | .ok r =>
    match r.ret with
    | [] => .ok (r.state, [])
    | (k, _) :: _ =>
      if k.length = 2 then .error .attributeError else .error .valueError

/-- `Inventory.__getitem__`: `self.inventory[key]`, where the `inventory`
property returns `self.targets` directly (no initialise, no render). -/
def getitem (inv : Inventory) (key : String) : Except PyErr InventoryTarget :=
  match dictGet? inv.targets key with
  | some t => .ok t
  | none => .error (.keyError key)

/-- The subset of the registry that step 2 of `get_targets` resolves for a
request: the whole registry for an empty request, otherwise the outcome of
the dict comprehension — which is the empty dict when a missing name's
`KeyError` was swallowed, since the assignment to `targets` never ran. -/
def resolvedSubset (reg : List (String × InventoryTarget)) (names : List String)
    (ig : Bool) : List (String × InventoryTarget) :=
  match resolveStep reg names ig with
  | .ok d => d
  | .error _ => []

/-- Accepted `(name, path)` pairs of one directory's files, in order. -/
def acceptedFiles (compose : Bool) (reldir : String) (files : List String) :
    List (String × String) :=
  files.filterMap (accepted compose reldir)

/-- Accepted `(name, path)` pairs of a whole walk, in processing order. -/
def acceptedPairs (compose : Bool) (walk : List WalkEntry) :
    List (String × String) :=
  walk.flatMap (fun e => acceptedFiles compose e.reldir e.files)

/-- Registry evolution of discovery over the accepted `(name, path)`
pairs: insert each name, stopping with the collision error when the name
is already registered. -/
def pairFold (reg : List (String × InventoryTarget)) :
    List (String × String) → List (String × InventoryTarget) × Option PyErr
  | [] => (reg, none)
  | (n, p) :: rest =>
    match dictGet? reg n with
    | some old => (reg, some (.conflict (conflictMsg n p old.path)))
    | none => pairFold (dictSet reg n (newTarget n p)) rest

/-- A fresh inventory in compact-name mode. -/
def freshCompact : Inventory := {}

/-- Walk of a targets tree holding `a.yml` and `sub/a.yml`. -/
def twoFileWalk : List WalkEntry := [⟨"", ["a.yml"]⟩, ⟨"sub", ["a.yml"]⟩]

/-- Walk of a targets tree holding just `a.yml`. -/
def oneFileWalk : List WalkEntry := [⟨"", ["a.yml"]⟩]

/-- The unrendered record discovered from `a.yml`. -/
def tU : InventoryTarget := { name := "a", path := "a.yml" }

/-- The record of `a.yml` after the stub backend rendered it. -/
def tR : InventoryTarget := { name := "a", path := "a.yml", parameters := [("x", 1)] }

/-- A second, already rendered record. -/
def tS : InventoryTarget := { name := "s", path := "s.yml", parameters := [("y", 2)] }

/-- A rendered record under a two-character name. -/
def t1 : InventoryTarget := { name := "t1", path := "t1.yml", parameters := [("x", 1)] }

/-- An initialised inventory whose single target `a` is still unrendered. -/
def oneUnrendered : Inventory := { initialised := true, targets := [("a", tU)] }

/-- An initialised inventory whose single target `a` is already rendered. -/
def renderedInv : Inventory := { initialised := true, targets := [("a", tR)] }

/-- An initialised inventory with two rendered targets. -/
def twoRendered : Inventory := { initialised := true, targets := [("a", tR), ("s", tS)] }

/-- An initialised inventory whose single target has the two-character
name `t1` and is already rendered. -/
def invT1 : Inventory := { initialised := true, targets := [("t1", t1)] }

/-- A stub backend that fills in one parameter. -/
def fillBackend (t : InventoryTarget) : InventoryTarget :=
  { t with parameters := [("x", 1)] }

/-- Result of `get_targets` on `oneUnrendered` with an empty request. -/
def c6res : GetResult :=
  { state := { oneUnrendered with targets := [("a", tR)] },
    pre := [("a", tU)], renderCalls := [[tU]], scanned := false,
    ret := [("a", tR)] }

/-- Result of `get_targets` on `twoRendered` requesting only `a`. -/
def c8res : GetResult :=
  { state := twoRendered, pre := twoRendered.targets, renderCalls := [],
    scanned := false, ret := twoRendered.targets }

/-- Result of `get_targets` on a fresh inventory over `oneFileWalk`. -/
def c10res : GetResult :=
  { state := { oneUnrendered with targets := [("a", tR)] },
    pre := [("a", tU)], renderCalls := [[tU]], scanned := true,
    ret := [("a", tR)] }

theorem dictGet?_mem {α : Type} {reg : List (String × α)} {k : String} {v : α}
    (h : dictGet? reg k = some v) : (k, v) ∈ reg := by
  induction reg with
  | nil => simp [dictGet?] at h
  | cons p rest ih =>
    obtain ⟨a, b⟩ := p
    by_cases hk : a = k
    · subst hk
      simp [dictGet?] at h
      simp [h]
    · simp [dictGet?, hk] at h
      exact List.mem_cons_of_mem _ (ih h)

theorem dictGet?_eq_none {α : Type} {reg : List (String × α)} {k : String} :
    dictGet? reg k = none ↔ k ∉ reg.map Prod.fst := by
  induction reg with
  | nil => simp [dictGet?]
  | cons p rest ih =>
    obtain ⟨a, b⟩ := p
    by_cases hk : a = k
    · subst hk; simp [dictGet?]
    · have hk' : ¬ k = a := fun h => hk h.symm
      simp [dictGet?, hk, hk', ih]

theorem dictSet_absent {α : Type} {reg : List (String × α)} {k : String} {v : α}
    (h : dictGet? reg k = none) : dictSet reg k v = reg ++ [(k, v)] := by
  induction reg with
  | nil => rfl
  | cons p rest ih =>
    obtain ⟨a, b⟩ := p
    by_cases hk : a = k
    · simp [dictGet?, hk] at h
    · simp [dictGet?, hk] at h
      simp [dictSet, hk, ih h]

theorem renderInto_keys (B : InventoryTarget → InventoryTarget)
    (reg : List (String × InventoryTarget)) (ks : List String) :
    (renderInto B reg ks).map Prod.fst = reg.map Prod.fst := by
  induction reg with
  | nil => rfl
  | cons p rest ih =>
    obtain ⟨a, b⟩ := p
    by_cases h : a ∈ ks <;> simp [renderInto, h, ih]

theorem dictGet?_renderInto (B : InventoryTarget → InventoryTarget)
    (reg : List (String × InventoryTarget)) (ks : List String) (k : String) :
    dictGet? (renderInto B reg ks) k =
      (dictGet? reg k).map (fun t => if k ∈ ks then B t else t) := by
  induction reg with
  | nil => rfl
  | cons p rest ih =>
    obtain ⟨a, b⟩ := p
    by_cases hk : a = k
    · subst hk
      by_cases hm : a ∈ ks <;> simp [renderInto, dictGet?, hm]
    · by_cases hm : a ∈ ks <;> simp [renderInto, dictGet?, hk, hm, ih]

theorem buildSubsetAux_error (reg : List (String × InventoryTarget)) :
    ∀ (names : List String) (acc : List (String × InventoryTarget)),
      (∃ n ∈ names, dictGet? reg n = none) →
      ∃ m, buildSubsetAux reg acc names = .error m := by
  intro names
  induction names with
  | nil => intro acc h; simp at h
  | cons n ns ih =>
    intro acc h
    match hg : dictGet? reg n with
    | none => exact ⟨n, by simp [buildSubsetAux, hg]⟩
    | some t =>
      obtain ⟨m, hm, hnone⟩ := h
      rcases List.mem_cons.mp hm with rfl | hmem
      · rw [hg] at hnone; cases hnone
      · obtain ⟨x, hx⟩ := ih (dictSet acc n t) ⟨m, hmem, hnone⟩
        exact ⟨x, by simp [buildSubsetAux, hg, hx]⟩

theorem missingOf_toFinset (names : List String)
    (reg : List (String × InventoryTarget)) :
    (missingOf names reg).toFinset =
      names.toFinset \ (reg.map Prod.fst).toFinset := by
  ext x
  simp [missingOf, List.mem_dedup, List.mem_filter,
        Option.isNone_iff_eq_none, dictGet?_eq_none]

theorem processFiles_eq_pairFold (reldir : String) :
    ∀ (files : List String) (inv : Inventory),
      processFiles inv reldir files =
        ({ inv with targets :=
             (pairFold inv.targets
               (acceptedFiles inv.compose_target_name reldir files)).1 },
         (pairFold inv.targets
           (acceptedFiles inv.compose_target_name reldir files)).2) := by
  intro files
  induction files with
  | nil => intro inv; rfl
  | cons f fs ih =>
    intro inv
    match ha : accepted inv.compose_target_name reldir f with
    | none =>
      have h1 : processFile inv reldir f = (inv, none) := by
        simp [processFile, ha]
      simp only [processFiles, h1, acceptedFiles, List.filterMap_cons, ha]
      exact ih inv
    | some (n, p) =>
      match hg : dictGet? inv.targets n with
      | some old =>
        have h1 : processFile inv reldir f =
            (inv, some (.conflict (conflictMsg n p old.path))) := by
          simp [processFile, ha, hg]
        simp only [processFiles, h1, acceptedFiles, List.filterMap_cons, ha,
          pairFold, hg]
      | none =>
        have h1 : processFile inv reldir f =
            ({ inv with targets := dictSet inv.targets n (newTarget n p) },
              none) := by
          simp [processFile, ha, hg]
        simp only [processFiles, h1, acceptedFiles, List.filterMap_cons, ha,
          pairFold, hg]
        exact ih { inv with targets := dictSet inv.targets n (newTarget n p) }

theorem pairFold_append :
    ∀ (xs ys : List (String × String)) (reg : List (String × InventoryTarget)),
      pairFold reg (xs ++ ys) =
        match pairFold reg xs with
        | (r, none) => pairFold r ys
        | (r, some e) => (r, some e) := by
  intro xs
  induction xs with
  | nil => intro ys reg; rfl
  | cons q qs ih =>
    intro ys reg
    obtain ⟨n, p⟩ := q
    match hg : dictGet? reg n with
    | some old => simp [pairFold, hg]
    | none => simp [pairFold, hg, ih]

theorem processWalk_eq_pairFold :
    ∀ (walk : List WalkEntry) (inv : Inventory),
      (processWalk inv walk).1.targets =
          (pairFold inv.targets (acceptedPairs inv.compose_target_name walk)).1
        ∧ (processWalk inv walk).2 =
          (pairFold inv.targets (acceptedPairs inv.compose_target_name walk)).2 := by
  intro walk
  induction walk with
  | nil => intro inv; exact ⟨rfl, rfl⟩
  | cons e es ih =>
    intro inv
    have h1 := processFiles_eq_pairFold e.reldir e.files inv
    have hap : acceptedPairs inv.compose_target_name (e :: es) =
        acceptedFiles inv.compose_target_name e.reldir e.files
          ++ acceptedPairs inv.compose_target_name es := by
      simp [acceptedPairs]
    rcases hpf : pairFold inv.targets
        (acceptedFiles inv.compose_target_name e.reldir e.files) with ⟨R1, E⟩
    rw [hpf] at h1
    cases E with
    | some err =>
      have h2 : processWalk inv (e :: es) =
          ({ inv with targets := R1 }, some err) := by
        simp only [processWalk, h1]
      rw [h2, hap, pairFold_append, hpf]
      exact ⟨rfl, rfl⟩
    | none =>
      have h2 : processWalk inv (e :: es) =
          processWalk { inv with targets := R1, initialised := true } es := by
        simp only [processWalk, h1]
      have h3 := ih { inv with targets := R1, initialised := true }
      rw [h2, hap, pairFold_append, hpf]
      exact h3

theorem pairFold_conflict (P : List (String × String)) :
    ∀ (pairs : List (String × String)) (reg : List (String × InventoryTarget)),
      (∀ q ∈ pairs, q ∈ P) →
      (∀ kt ∈ reg, ((kt : String × InventoryTarget).1, kt.2.path) ∈ P) →
      (reg.map Prod.fst).Nodup →
      ¬ (reg.map Prod.fst ++ pairs.map Prod.fst).Nodup →
      ∃ n pNew pOld,
        (pairFold reg pairs).2 = some (.conflict (conflictMsg n pNew pOld))
          ∧ (n, pNew) ∈ P ∧ (n, pOld) ∈ P := by
  intro pairs
  induction pairs with
  | nil =>
    intro reg hP hreg hnd hdup
    exact absurd (by simpa using hnd) hdup
  | cons q qs ih =>
    intro reg hP hreg hnd hdup
    obtain ⟨n, p⟩ := q
    match hg : dictGet? reg n with
    | some old =>
      refine ⟨n, p, old.path, by simp [pairFold, hg],
        hP _ (List.mem_cons_self _ _), hreg _ (dictGet?_mem hg)⟩
    | none =>
      have hnotin : n ∉ reg.map Prod.fst := dictGet?_eq_none.mp hg
      have hset : dictSet reg n (newTarget n p) = reg ++ [(n, newTarget n p)] :=
        dictSet_absent hg
      have hkeys : (dictSet reg n (newTarget n p)).map Prod.fst
          = reg.map Prod.fst ++ [n] := by simp [hset]
      have hP' : ∀ q ∈ qs, q ∈ P := fun q hq => hP q (List.mem_cons_of_mem _ hq)
      have hreg' : ∀ kt ∈ dictSet reg n (newTarget n p),
          ((kt : String × InventoryTarget).1, kt.2.path) ∈ P := by
        intro kt hkt
        rw [hset] at hkt
        rcases List.mem_append.mp hkt with h | h
        · exact hreg _ h
        · have : kt = (n, newTarget n p) := by simpa using h
          subst this
          exact hP _ (List.mem_cons_self _ _)
      have hnd' : ((dictSet reg n (newTarget n p)).map Prod.fst).Nodup := by
        rw [hkeys]
        refine List.Nodup.append hnd (List.nodup_singleton n) ?_
        intro x hx hx'
        have : x = n := by simpa using hx'
        subst this
        exact hnotin hx
      have hdup' :
          ¬ ((dictSet reg n (newTarget n p)).map Prod.fst ++ qs.map Prod.fst).Nodup := by
        rw [hkeys, List.append_assoc]
        simpa using hdup
      obtain ⟨x, y, z, he, h1, h2⟩ := ih (dictSet reg n (newTarget n p)) hP' hreg' hnd' hdup'
      exact ⟨x, y, z, by simp [pairFold, hg, he], h1, h2⟩

theorem get_targets_ok_inv (B : InventoryTarget → InventoryTarget)
    (w : List WalkEntry) (inv : Inventory) (names : List String) (ig : Bool)
    (r : GetResult) (h : get_targets B w inv names ig = .ok r) :
    ∃ inv1 sub,
      initStep w inv = (inv1, none)
        ∧ resolveStep inv1.targets names ig = .ok sub
        ∧ ((unrenderedOf sub).isEmpty = true
             ∧ r = { state := inv1, pre := inv1.targets, renderCalls := [],
                     scanned := inv.targets.isEmpty, ret := inv1.targets }
           ∨ (unrenderedOf sub).isEmpty = false
             ∧ r = { state := { inv1 with targets := renderInto B inv1.targets ((unrenderedOf sub).map Prod.fst) },
                     pre := inv1.targets,
                     renderCalls := [(unrenderedOf sub).map Prod.snd],
                     scanned := inv.targets.isEmpty,
                     ret := renderInto B inv1.targets ((unrenderedOf sub).map Prod.fst) }) := by
  unfold get_targets at h
  rcases hi : initStep w inv with ⟨inv1, oe⟩
  rw [hi] at h
  cases oe with
  | some e => dsimp only at h; cases h
  | none =>
    dsimp only at h
    refine ⟨inv1, ?_⟩
    cases hs : resolveStep inv1.targets names ig with
    | error e =>
      rw [hs] at h
      dsimp only at h
      cases h
    | ok sub =>
      rw [hs] at h
      dsimp only at h
      refine ⟨sub, rfl, rfl, ?_⟩
      by_cases hb : (unrenderedOf sub).isEmpty = true
      · rw [if_pos hb] at h
        cases h
        exact Or.inl ⟨hb, rfl⟩
      · rw [if_neg hb] at h
        cases h
        exact Or.inr ⟨Bool.eq_false_iff.mpr hb, rfl⟩

/-- C1: the claim says the multi-name form of `get_parameters` returns a
name-to-parameters mapping pairing every requested name with its record.
The code instead iterates `self.get_targets(target_names)` without
`.items()`, so each iteration tuple-unpacks a registry KEY string: here the
single present, already rendered target `t1` is requested, and the call
raises `AttributeError` (the two-character key unpacks into two
one-character strings and `.parameters` is accessed on a `str`) instead of
returning the mapping. -/
theorem c1_get_parameters_multi_raises :
    dictGet? invT1.targets "t1" = some t1
      ∧ t1.parameters = [("x", 1)]
      ∧ get_parameters_list fillBackend [] invT1 ["t1"] false
        = .error .attributeError := ⟨rfl, rfl, rfl⟩

/-- C2: the claim says the initialised flag stays false whenever discovery
raises a collision error. In the code `self.initialised = True` sits inside
the `os.walk` loop, so on a walk yielding the targets root (with `a.yml`)
before `sub` (with `a.yml`), the collision in the second directory is
raised AFTER the flag was already set by the first directory: the call
fails with the conflict error yet leaves `initialised = true`. -/
theorem c2_initialised_set_despite_collision :
    (initialise freshCompact twoFileWalk).2
        = .error (.conflict (conflictMsg "a" "sub/a.yml" "a.yml"))
      ∧ (initialise freshCompact twoFileWalk).1.initialised = true := ⟨rfl, rfl⟩

/-- C3 counterexample: registry holds the found, unrendered target `a`;
requesting `["a", "missing"]` with `ignoreMissing = true` submits NO batch
to the backend (`renderCalls = []`) and leaves `a` unrendered, contrary to
the claim that the found subset is processed and its unrendered records
submitted: the swallowed `KeyError` leaves the pre-assigned empty dict as
the working subset. -/
theorem c3_counterexample_found_not_submitted :
    dictGet? oneUnrendered.targets "a" = some tU
      ∧ tU.parameters = []
      ∧ get_targets fillBackend [] oneUnrendered ["a", "missing"] true
        = .ok { state := oneUnrendered, pre := oneUnrendered.targets,
                renderCalls := [], scanned := false,
                ret := oneUnrendered.targets } := ⟨rfl, rfl, rfl⟩

/-- C4 counterexample: on a registry whose target `a` is present but
unrendered, `__getitem__` returns the unrendered record while
`get_targets(["a"])["a"]` triggers the render and returns the rendered
one — the two accessors disagree, refuting the claim that indexing equals
resolve-then-index for every name. -/
theorem c4_counterexample_getitem_unrendered :
    getitem oneUnrendered "a" = .ok tU
      ∧ get_target fillBackend [] oneUnrendered "a" false
        = .ok ({ oneUnrendered with targets := [("a", tR)] }, tR)
      ∧ tU ≠ tR := ⟨rfl, rfl, by decide⟩

/-- C3 amended: when `ignoreMissing` is true and at least one requested
name is absent from a non-empty registry, `get_targets` proceeds with the
EMPTY subset — the dict comprehension's `KeyError` is swallowed and its
partial result discarded, so no record (not even a found, unrendered one)
is submitted to the backend, no error is raised, and the registry is
returned unchanged. -/
theorem c3_amended_ignore_missing_empty_subset
    (B : InventoryTarget → InventoryTarget) (w : List WalkEntry)
    (inv : Inventory) (names : List String)
    (h1 : inv.targets.isEmpty = false)
    (h2 : ∃ n ∈ names, dictGet? inv.targets n = none) :
    get_targets B w inv names true
      = .ok { state := inv, pre := inv.targets, renderCalls := [],
              scanned := false, ret := inv.targets } := by
  have hne : names.isEmpty = false := by
    obtain ⟨n, hn, -⟩ := h2
    cases names with
    | nil => cases hn
    | cons a l => rfl
  obtain ⟨m, hm⟩ := buildSubsetAux_error inv.targets names [] h2
  have his : initStep w inv = (inv, none) := by simp [initStep, h1]
  have hrs : resolveStep inv.targets names true = .ok [] := by
    simp [resolveStep, hne, buildSubset, hm]
  unfold get_targets
  rw [his]
  dsimp only
  rw [hrs]
  dsimp only
  simp [unrenderedOf, h1]

theorem c3_witness_ignore_missing :
    oneUnrendered.targets.isEmpty = false
      ∧ get_targets fillBackend [] oneUnrendered ["a", "missing"] true
        = .ok { state := oneUnrendered, pre := oneUnrendered.targets,
                renderCalls := [], scanned := false,
                ret := oneUnrendered.targets } :=
  ⟨rfl, c3_amended_ignore_missing_empty_subset fillBackend [] oneUnrendered
      ["a", "missing"] rfl ⟨"missing", by simp, rfl⟩⟩

/-- C4 amended: `__getitem__` indexes the registry directly (no discovery,
no render); it agrees with `get_targets([name])[name]` whenever the
requested name is present and its record is already rendered (non-empty
parameters), in which case both return the registry record and
`get_targets` leaves the state untouched. -/
theorem c4_amended_getitem_rendered (B : InventoryTarget → InventoryTarget)
    (w : List WalkEntry) (inv : Inventory) (name : String)
    (t : InventoryTarget)
    (hfind : dictGet? inv.targets name = some t)
    (hrendered : t.parameters.isEmpty = false) :
    getitem inv name = .ok t
      ∧ get_target B w inv name false = .ok (inv, t) := by
  have h1 : inv.targets.isEmpty = false := by
    cases hr : inv.targets with
    | nil => rw [hr] at hfind; cases hfind
    | cons a l => rfl
  have hsub : buildSubset inv.targets [name] = .ok [(name, t)] := by
    simp [buildSubset, buildSubsetAux, hfind, dictSet]
  have hrs : resolveStep inv.targets [name] false = .ok [(name, t)] := by
    simp [resolveStep, hsub]
  have his : initStep w inv = (inv, none) := by simp [initStep, h1]
  have hgt : get_targets B w inv [name] false
      = .ok { state := inv, pre := inv.targets, renderCalls := [],
              scanned := false, ret := inv.targets } := by
    unfold get_targets
    rw [his]
    dsimp only
    rw [hrs]
    dsimp only
    simp [unrenderedOf, List.filter_cons, hrendered, h1]
  refine ⟨by simp [getitem, hfind], ?_⟩
  unfold get_target
  rw [hgt]
  dsimp only
  rw [hfind]

theorem c4_witness_rendered_agreement :
    getitem renderedInv "a" = .ok tR
      ∧ get_target fillBackend [] renderedInv "a" false
        = .ok (renderedInv, tR) :=
  c4_amended_getitem_rendered fillBackend [] renderedInv "a" tR rfl rfl

/-- C5: whenever two files accepted by the walk derive the same target
name (the accepted names are not pairwise distinct), `initialise` on a
fresh inventory fails with the discovery (conflict) error, and the
formatted message `conflictMsg n pNew pOld` interpolates both colliding
source paths, each of which is the path of an accepted pair deriving the
colliding name. -/
theorem c5_collision_error_names_both_paths (inv : Inventory)
    (walk : List WalkEntry)
    (hflag : inv.initialised = false) (hreg : inv.targets = [])
    (hdup : ¬ ((acceptedPairs inv.compose_target_name walk).map Prod.fst).Nodup) :
    ∃ n pNew pOld,
      (initialise inv walk).2 = .error (.conflict (conflictMsg n pNew pOld))
        ∧ (n, pNew) ∈ acceptedPairs inv.compose_target_name walk
        ∧ (n, pOld) ∈ acceptedPairs inv.compose_target_name walk := by
  have hw := (processWalk_eq_pairFold walk inv).2
  rw [hreg] at hw
  obtain ⟨n, pN, pO, he, hm1, hm2⟩ :=
    pairFold_conflict (acceptedPairs inv.compose_target_name walk)
      (acceptedPairs inv.compose_target_name walk) []
      (fun _ hq => hq) (fun kt hkt => absurd hkt (List.not_mem_nil kt))
      List.nodup_nil (by simpa using hdup)
  refine ⟨n, pN, pO, ?_, hm1, hm2⟩
  rw [he] at hw
  rcases hpw : processWalk inv walk with ⟨i, oe⟩
  rw [hpw] at hw
  dsimp only at hw
  subst hw
  simp [initialise, hflag, hpw]

theorem c5_witness_compact_two_files :
    ¬ ((acceptedPairs freshCompact.compose_target_name twoFileWalk).map Prod.fst).Nodup
      ∧ ∃ n pNew pOld,
          (initialise freshCompact twoFileWalk).2
              = .error (.conflict (conflictMsg n pNew pOld))
            ∧ (n, pNew) ∈ acceptedPairs freshCompact.compose_target_name twoFileWalk
            ∧ (n, pOld) ∈ acceptedPairs freshCompact.compose_target_name twoFileWalk :=
  ⟨by decide,
    c5_collision_error_names_both_paths freshCompact twoFileWalk rfl rfl (by decide)⟩

/-- C6: on every successful `get_targets` call, the batches submitted to
`render_targets` are exactly: nothing when every record of the resolved
subset already has non-empty parameters, and otherwise ONE batch holding
precisely the still-unrendered (empty-parameters) records of the resolved
subset — an already rendered record is never submitted again. -/
theorem c6_unrendered_batch (B : InventoryTarget → InventoryTarget)
    (w : List WalkEntry) (inv : Inventory) (names : List String) (ig : Bool)
    (r : GetResult) (h : get_targets B w inv names ig = .ok r) :
    r.renderCalls =
      if (unrenderedOf (resolvedSubset r.pre names ig)).isEmpty then []
      else [(unrenderedOf (resolvedSubset r.pre names ig)).map Prod.snd] := by
  obtain ⟨inv1, sub, hi, hs, hcase⟩ := get_targets_ok_inv B w inv names ig r h
  have hres : resolvedSubset inv1.targets names ig = sub := by
    simp [resolvedSubset, hs]
  rcases hcase with ⟨hb, rfl⟩ | ⟨hb, rfl⟩ <;> simp [hres, hb]

theorem c6_witness_batch :
    c6res.renderCalls =
      if (unrenderedOf (resolvedSubset c6res.pre [] false)).isEmpty then []
      else [(unrenderedOf (resolvedSubset c6res.pre [] false)).map Prod.snd] :=
  c6_unrendered_batch fillBackend [] oneUnrendered [] false c6res rfl

/-- C7: requesting names of which at least one is absent from a non-empty
registry, with `ignoreMissing = false`, fails with the lookup error
carrying `set(target_names) - set(self.targets)`; that enumerated set is
exactly the set of requested names not in the registry. -/
theorem c7_missing_error_enumerates (B : InventoryTarget → InventoryTarget)
    (w : List WalkEntry) (inv : Inventory) (names : List String)
    (h1 : inv.targets.isEmpty = false)
    (h2 : ∃ n ∈ names, dictGet? inv.targets n = none) :
    get_targets B w inv names false
        = .error (.targetsNotFound (missingOf names inv.targets))
      ∧ (missingOf names inv.targets).toFinset
        = names.toFinset \ (inv.targets.map Prod.fst).toFinset := by
  refine ⟨?_, missingOf_toFinset names inv.targets⟩
  have hne : names.isEmpty = false := by
    obtain ⟨n, hn, -⟩ := h2
    cases names with
    | nil => cases hn
    | cons a l => rfl
  obtain ⟨m, hm⟩ := buildSubsetAux_error inv.targets names [] h2
  have his : initStep w inv = (inv, none) := by simp [initStep, h1]
  have hrs : resolveStep inv.targets names false
      = .error (.targetsNotFound (missingOf names inv.targets)) := by
    simp [resolveStep, hne, buildSubset, hm]
  unfold get_targets
  rw [his]
  dsimp only
  rw [hrs]

theorem c7_witness_missing :
    get_targets fillBackend [] renderedInv ["missing"] false
        = .error (.targetsNotFound (missingOf ["missing"] renderedInv.targets))
      ∧ (missingOf ["missing"] renderedInv.targets).toFinset
        = (["missing"] : List String).toFinset
          \ (renderedInv.targets.map Prod.fst).toFinset :=
  c7_missing_error_enumerates fillBackend [] renderedInv ["missing"] rfl
    ⟨"missing", by simp, rfl⟩

/-- C8: every successful `get_targets` call returns the full registry —
the returned dict is `self.targets` itself (the final state's registry),
and its keys are exactly the keys the registry had after discovery, not
merely the requested subset. -/
theorem c8_returns_full_registry (B : InventoryTarget → InventoryTarget)
    (w : List WalkEntry) (inv : Inventory) (names : List String) (ig : Bool)
    (r : GetResult) (h : get_targets B w inv names ig = .ok r) :
    r.ret = r.state.targets
      ∧ r.ret.map Prod.fst = r.pre.map Prod.fst := by
  obtain ⟨inv1, sub, hi, hs, hcase⟩ := get_targets_ok_inv B w inv names ig r h
  rcases hcase with ⟨hb, rfl⟩ | ⟨hb, rfl⟩
  · exact ⟨rfl, rfl⟩
  · exact ⟨rfl, renderInto_keys B inv1.targets _⟩

theorem c8_witness_full_registry :
    c8res.ret = c8res.state.targets
      ∧ c8res.ret.map Prod.fst = c8res.pre.map Prod.fst :=
  c8_returns_full_registry fillBackend [] twoRendered ["a"] false c8res rfl

/-- C9: the single-name form of `get_parameters` returns exactly the
`parameters` of `get_targets([name])[name]` — for every state, backend and
flag the two computations agree, errors included (and in particular, on a
present name, the identical parameters object). -/
theorem c9_get_parameters_single_eq (B : InventoryTarget → InventoryTarget)
    (w : List WalkEntry) (inv : Inventory) (name : String) (ig : Bool) :
    get_parameters_single B w inv name ig =
      (match get_targets B w inv [name] ig with
       | .error e => .error e
       | .ok r =>
         match dictGet? r.ret name with
         | some t => .ok (r.state, t.parameters)
         | none => .error (.keyError name)) := by
  unfold get_parameters_single get_target
  cases h : get_targets B w inv [name] ig with
  | error e => rfl
  | ok r =>
    dsimp only
    cases hg : dictGet? r.ret name with
    | some t => rfl
    | none => rfl

/-- C10: when the walk yields no directory entries, `initialise` leaves
the flag false and returns false (the `self.initialised = True` statement
sits inside the walk loop and never runs), so a later `get_targets` on the
still-empty registry enters the initialise branch and actually re-runs the
scan: its working registry is the one freshly discovered from the walk it
is given. -/
theorem c10_empty_walk_rescans (inv : Inventory)
    (B : InventoryTarget → InventoryTarget) (w : List WalkEntry)
    (names : List String) (ig : Bool) (r : GetResult)
    (hflag : inv.initialised = false) (hreg : inv.targets = [])
    (h : get_targets B w inv names ig = .ok r) :
    initialise inv [] = (inv, .ok false)
      ∧ r.scanned = true
      ∧ r.pre = (initialise inv w).1.targets := by
  have hie : inv.targets.isEmpty = true := by rw [hreg]; rfl
  obtain ⟨inv1, sub, hi, hs, hcase⟩ := get_targets_ok_inv B w inv names ig r h
  have hinit : (initialise inv w).1 = inv1 := by
    unfold initStep at hi
    rw [if_pos hie] at hi
    rcases hI : initialise inv w with ⟨i, er⟩
    rw [hI] at hi
    cases er with
    | ok b =>
      dsimp only at hi
      exact congrArg Prod.fst hi
    | error e =>
      dsimp only at hi
      cases hi
  rcases hcase with ⟨hb, rfl⟩ | ⟨hb, rfl⟩ <;>
    exact ⟨by simp [initialise, hflag, processWalk], hie, by rw [hinit]⟩

theorem c10_witness_rescan :
    initialise freshCompact [] = (freshCompact, .ok false)
      ∧ c10res.scanned = true
      ∧ c10res.pre = (initialise freshCompact oneFileWalk).1.targets :=
  c10_empty_walk_rescans freshCompact fillBackend oneFileWalk [] false c10res
    rfl rfl rfl
